import Mathlib

/-!
Verification of the AdventureGPT game-state engine.

The development shallowly embeds the C engine: the data model from
adventure_engine.h, the state operations (move_player, inventory and flag
operations) shared by both engine translation units, the two JSON parser
variants (the json-c variant, namespace Jsonc, and the legacy cJSON
variant, namespace Cjson), and the command dispatcher handle_input from
main.c.

Modelling conventions:
- C structs become Lean structures; the (array, count) pairs of the C
  structs become Lean lists, with the capacity bounds (MAX_EXITS, ...)
  modelled wherever the C code checks a count.  A count field such as
  inventory_count is the length of the corresponding list.
- Fixed-size char buffers are modelled as unbounded strings; the byte
  truncation performed by safe_strcpy is a memory-layout detail outside
  the embedding.  safe_strcpy(NULL) producing "" and the calloc
  zero-initialisation of every struct (empty string / false / empty list)
  are modelled.
- Functions mutating GameState through a pointer become functions
  returning the new GameState (paired with the C bool result where the
  function returns one).  printf calls are I/O and are dropped.
- JSON is modelled as an inductive tree shared by both parsers; each
  library's object-key lookup is modelled separately: json-c
  json_object_object_get_ex as first exact-key match (Json.lookupKey),
  cJSON cJSON_GetObjectItem as first case-insensitive key match
  (Cjson.getObjectItem), matching the libraries' documented behaviour.
  The tree abstracts each library's own tokenizer, so tokenizer-level
  duplicate-key resolution (json-c keeps the last duplicate, cJSON keeps
  all) is outside the model.
-/

/-- Capacity constants from adventure_engine.h. -/
def MAX_EXITS : Nat := 8

def MAX_ITEMS : Nat := 32

def MAX_LOCATIONS : Nat := 256

def MAX_INVENTORY_ITEMS : Nat := 64

def MAX_FLAGS : Nat := 128

/-- Exit struct: a labelled edge of the location graph. -/
structure Exit where
  direction : String
  target_location : String
deriving DecidableEq

/-- Location struct.  The parallel flag arrays with their counts become
lists of (name, value) pairs. -/
structure Location where
  id : String
  title : String
  description : String
  image_path : String
  first_visit_text : String
  visited : Bool
  exits : List Exit
  items : List String
  flags_required : List (String × Bool)
  flags_set : List (String × Bool)
deriving DecidableEq

/-- InventoryItem struct: an item definition from the catalog. -/
structure InventoryItem where
  id : String
  name : String
  description : String
  takeable : Bool
  useable : Bool
  use_text : String
deriving DecidableEq

/-- GameMeta struct. -/
structure GameMeta where
  title : String
  author : String
  description : String
  version : String
deriving DecidableEq

/-- Player struct.  inventory_count and flags_count are the list lengths. -/
structure Player where
  inventory : List String
  current_location : String
  flags : List (String × Bool)
deriving DecidableEq

/-- GameState struct. -/
structure GameState where
  meta : GameMeta
  start_location : String
  locations : List Location
  inventory_items : List InventoryItem
  game_flags : List (String × Bool)
  player : Player
deriving DecidableEq

/-- ASCII lowercase conversion, modelling C tolower in the C locale. -/
def c_tolower (c : Char) : Char :=
  if 'A' ≤ c ∧ c ≤ 'Z' then Char.ofNat (c.toNat + 32) else c

/-- Case-insensitive string equality: models strcasecmp(a, b) == 0. -/
def str_case_eq (a b : String) : Bool :=
  a.data.map c_tolower == b.data.map c_tolower

/-- Scan of the locations array in get_location_by_id: first location whose
id compares equal under strcmp. -/
def find_location : List Location → String → Option Location
  | [], _ => none
  | loc :: rest, location_id =>
    if loc.id == location_id then some loc else find_location rest location_id

/-- get_location_by_id from the engine. -/
def get_location_by_id (game : GameState) (location_id : String) : Option Location :=
  find_location game.locations location_id

/-- get_current_location from the engine. -/
def get_current_location (game : GameState) : Option Location :=
  get_location_by_id game game.player.current_location

/-- The exit scan loop of move_player: first exit whose direction matches
the requested direction under strcasecmp. -/
def find_exit : List Exit → String → Option Exit
  | [], _ => none
  | e :: rest, direction =>
    if str_case_eq e.direction direction then some e else find_exit rest direction

/-- The write target_location->visited = true performed through the pointer
returned by get_location_by_id: it updates the first location in the array
whose id matches. -/
def set_visited_by_id : List Location → String → List Location
  | [], _ => []
  | loc :: rest, location_id =>
    if loc.id == location_id then { loc with visited := true } :: rest
    else loc :: set_visited_by_id rest location_id

/-- move_player from the engine: resolve the current location, scan its
exits for the first case-insensitive direction match, check the target
resolves, then update the player position and mark the target visited. -/
def move_player (game : GameState) (direction : String) : GameState × Bool :=
  match get_current_location game with
  | none => (game, false)
  | some current_location =>
    match find_exit current_location.exits direction with
    | none => (game, false)
    | some e =>
      match get_location_by_id game e.target_location with
      | none => (game, false)
      | some _ =>
        ({ game with
            player := { game.player with current_location := e.target_location }
            locations := set_visited_by_id game.locations e.target_location },
         true)

/-- has_item from the engine: linear scan of the player inventory. -/
def has_item (game : GameState) (item_id : String) : Bool :=
  game.player.inventory.contains item_id

/-- add_item_to_inventory from the engine: capacity check first, then
duplicate check, then append. -/
def add_item_to_inventory (game : GameState) (item_id : String) : GameState × Bool :=
  if MAX_INVENTORY_ITEMS ≤ game.player.inventory.length then (game, false)
  else if has_item game item_id then (game, false)
  else
    ({ game with
        player := { game.player with inventory := game.player.inventory ++ [item_id] } },
     true)

/-- The scan-and-shift loop of remove_item_from_inventory: remove the first
occurrence, or report none when absent. -/
def remove_first : List String → String → Option (List String)
  | [], _ => none
  | x :: rest, item_id =>
    if x == item_id then some rest
    else
      match remove_first rest item_id with
      | some rest2 => some (x :: rest2)
      | none => none

/-- remove_item_from_inventory from the engine. -/
def remove_item_from_inventory (game : GameState) (item_id : String) : GameState × Bool :=
  match remove_first game.player.inventory item_id with
  | some inv => ({ game with player := { game.player with inventory := inv } }, true)
  | none => (game, false)

/-- The flag scan loop shared by get_flag and set_flag: first entry whose
name matches, returning its value. -/
def find_flag_value : List (String × Bool) → String → Option Bool
  | [], _ => none
  | (n, v) :: rest, flag_name =>
    if n == flag_name then some v else find_flag_value rest flag_name

/-- get_flag from the engine: player-scope scan, then game-scope scan,
else false. -/
def get_flag (game : GameState) (flag_name : String) : Bool :=
  match find_flag_value game.player.flags flag_name with
  | some v => v
  | none =>
    match find_flag_value game.game_flags flag_name with
    | some v => v
    | none => false

/-- The update loop of set_flag on one flag table: update the first entry
whose name matches, or report none when absent. -/
def update_flag : List (String × Bool) → String → Bool → Option (List (String × Bool))
  | [], _, _ => none
  | (n, v) :: rest, flag_name, value =>
    if n == flag_name then some ((n, value) :: rest)
    else
      match update_flag rest flag_name value with
      | some rest2 => some ((n, v) :: rest2)
      | none => none

/-- set_flag from the engine: update player scope if present, else game
scope if present, else append a new player-scope entry when below
MAX_FLAGS (silently dropped at capacity). -/
def set_flag (game : GameState) (flag_name : String) (value : Bool) : GameState :=
  match update_flag game.player.flags flag_name value with
  | some player_flags =>
    { game with player := { game.player with flags := player_flags } }
  | none =>
    match update_flag game.game_flags flag_name value with
    | some game_flags => { game with game_flags := game_flags }
    | none =>
      if game.player.flags.length < MAX_FLAGS then
        { game with
            player := { game.player with flags := game.player.flags ++ [(flag_name, value)] } }
      else game

/-- check_location_requirements from the engine: every required flag must
evaluate (via get_flag) to its required value. -/
def check_location_requirements (game : GameState) (location : Location) : Bool :=
  location.flags_required.all (fun p => get_flag game p.1 == p.2)

/-- JSON documents, as produced by either tokenizer. -/
inductive Json where
  | null
  | bool (b : Bool)
  | num (n : Int)
  | str (s : String)
  | arr (elems : List Json)
  | obj (entries : List (String × Json))

/-- First entry of an object whose key matches exactly. -/
def find_entry : List (String × Json) → String → Option Json
  | [], _ => none
  | (k, v) :: rest, key => if k == key then some v else find_entry rest key

/-- Object-key lookup of json-c's json_object_object_get_ex: exact key
match; on a non-object value the lookup reports absence. -/
def Json.lookupKey (j : Json) (key : String) : Option Json :=
  match j with
  | Json.obj entries => find_entry entries key
  | _ => none

namespace Jsonc

/-- get_json_string helper from the json-c translation unit. -/
def get_json_string (obj : Json) (key : String) : Option String :=
  match obj.lookupKey key with
  | some (Json.str s) => some s
  | _ => none

/-- get_json_bool helper from the json-c translation unit. -/
def get_json_bool (obj : Json) (key : String) : Bool :=
  match obj.lookupKey key with
  | some (Json.bool b) => b
  | _ => false

/-- The exits loop of parse_location (json-c): break at MAX_EXITS, keep
only string-valued targets. -/
def parse_exits : Nat → List (String × Json) → List Exit
  | _, [] => []
  | exits_count, (direction, target_obj) :: rest =>
    if MAX_EXITS ≤ exits_count then []
    else
      match target_obj with
      | Json.str target =>
        { direction := direction, target_location := target } :: parse_exits (exits_count + 1) rest
      | _ => parse_exits exits_count rest

/-- The items loop of parse_location (json-c): bounded by MAX_ITEMS, keep
only string elements. -/
def parse_items : Nat → List Json → List String
  | _, [] => []
  | items_count, item :: rest =>
    if MAX_ITEMS ≤ items_count then []
    else
      match item with
      | Json.str s => s :: parse_items (items_count + 1) rest
      | _ => parse_items items_count rest

/-- parse_location from the json-c translation unit.  A missing optional
field leaves the calloc default: "" / false / empty list.  The
flags_required and flags_set tables have no wire format and stay empty. -/
def parse_location (location_json : Json) (location_id : String) : Location :=
  { id := location_id
  , title := (get_json_string location_json "title").getD ""
  , description := (get_json_string location_json "description").getD ""
  , image_path := (get_json_string location_json "image").getD ""
  , first_visit_text := (get_json_string location_json "first_visit_text").getD ""
  , visited := get_json_bool location_json "visited"
  , exits :=
      match location_json.lookupKey "exits" with
      | some (Json.obj entries) => parse_exits 0 entries
      | _ => []
  , items :=
      match location_json.lookupKey "items" with
      | some (Json.arr elems) => parse_items 0 elems
      | _ => []
  , flags_required := []
  , flags_set := [] }

/-- parse_inventory_item from the json-c translation unit. -/
def parse_inventory_item (item_json : Json) (item_id : String) : InventoryItem :=
  { id := item_id
  , name := (get_json_string item_json "name").getD ""
  , description := (get_json_string item_json "description").getD ""
  , takeable := get_json_bool item_json "takeable"
  , useable := get_json_bool item_json "useable"
  , use_text := (get_json_string item_json "use_text").getD "" }

/-- The locations loop of load_game (json-c): break at MAX_LOCATIONS;
parse_location never fails on a present entry. -/
def parse_locations : Nat → List (String × Json) → List Location
  | _, [] => []
  | locations_count, (location_id, location_obj) :: rest =>
    if MAX_LOCATIONS ≤ locations_count then []
    else parse_location location_obj location_id :: parse_locations (locations_count + 1) rest

/-- The inventory_items loop of load_game (json-c): break at
MAX_INVENTORY_ITEMS. -/
def parse_inventory_items : Nat → List (String × Json) → List InventoryItem
  | _, [] => []
  | count, (item_id, item_obj) :: rest =>
    if MAX_INVENTORY_ITEMS ≤ count then []
    else parse_inventory_item item_obj item_id :: parse_inventory_items (count + 1) rest

/-- The player inventory loop of load_game (json-c): bounded by
MAX_INVENTORY_ITEMS, keep only string elements. -/
def parse_player_inventory : Nat → List Json → List String
  | _, [] => []
  | count, item :: rest =>
    if MAX_INVENTORY_ITEMS ≤ count then []
    else
      match item with
      | Json.str s => s :: parse_player_inventory (count + 1) rest
      | _ => parse_player_inventory count rest

/-- The meta block of load_game (json-c). -/
def parse_meta_block (d : Json) : GameMeta :=
  match d.lookupKey "meta" with
  | some meta =>
    { title := (get_json_string meta "title").getD ""
    , author := (get_json_string meta "author").getD ""
    , description := (get_json_string meta "description").getD ""
    , version := (get_json_string meta "version").getD "" }
  | none => { title := "", author := "", description := "", version := "" }

/-- The locations section of load_game (json-c): parsed only when the
locations value is an object. -/
def parse_locations_block (d : Json) : List Location :=
  match d.lookupKey "locations" with
  | some (Json.obj entries) => parse_locations 0 entries
  | _ => []

/-- The inventory_items section of load_game (json-c). -/
def parse_inventory_items_block (d : Json) : List InventoryItem :=
  match d.lookupKey "inventory_items" with
  | some (Json.obj entries) => parse_inventory_items 0 entries
  | _ => []

/-- The player-inventory section of load_game (json-c): parsed only when
the inventory value is an array. -/
def parse_player_inventory_block (player : Json) : List String :=
  match player.lookupKey "inventory" with
  | some (Json.arr elems) => parse_player_inventory 0 elems
  | _ => []

/-- The player block of load_game (json-c): current_location defaults to
the already-parsed start_location both when the block is absent and when
the block has no current_location string. -/
def parse_player_block (d : Json) (start_location : String) : Player :=
  match d.lookupKey "player" with
  | some player =>
    { current_location := (get_json_string player "current_location").getD start_location
    , inventory := parse_player_inventory_block player
    , flags := [] }
  | none => { current_location := start_location, inventory := [], flags := [] }

/-- load_game from the json-c translation unit, on an already-tokenized
document.  File I/O, allocation failure and tokenizer failure are the
load-time error paths and precede everything modelled here. -/
def load_game (d : Json) : GameState :=
  { meta := parse_meta_block d
  , start_location := (get_json_string d "start_location").getD ""
  , locations := parse_locations_block d
  , inventory_items := parse_inventory_items_block d
  , game_flags := []
  , player := parse_player_block d ((get_json_string d "start_location").getD "") }

end Jsonc

namespace Cjson

/-- The child scan of cJSON_GetObjectItem: first entry whose key matches
case-insensitively (cJSON's get_object_item compares keys with a
tolower-based strcmp when case_sensitive is false, which is what
cJSON_GetObjectItem passes). -/
def find_entry_ci : List (String × Json) → String → Option Json
  | [], _ => none
  | (k, v) :: rest, key => if str_case_eq k key then some v else find_entry_ci rest key

/-- cJSON_GetObjectItem: case-insensitive first-key match; on a
non-object value the lookup reports absence. -/
def getObjectItem (j : Json) (key : String) : Option Json :=
  match j with
  | Json.obj entries => find_entry_ci entries key
  | _ => none

/-- The valuestring field of a cJSON node: NULL for non-strings, which
safe_strcpy turns into "". -/
def valuestring : Json → String
  | Json.str s => s
  | _ => ""

/-- The cJSON string-field pattern: x = cJSON_GetObjectItem(obj, key);
if (x and cJSON_IsString(x)) copy x->valuestring, else keep the calloc
default "". -/
def str_field (obj : Json) (key : String) : String :=
  match getObjectItem obj key with
  | some (Json.str s) => s
  | _ => ""

/-- The cJSON bool-field pattern: assigned only for a present boolean,
else the calloc default false. -/
def bool_field (obj : Json) (key : String) : Bool :=
  match getObjectItem obj key with
  | some (Json.bool b) => b
  | _ => false

/-- The exits loop of parse_location (cJSON): break at MAX_EXITS; the
target is copied unconditionally via valuestring. -/
def parse_exits : Nat → List (String × Json) → List Exit
  | _, [] => []
  | exits_count, (direction, target) :: rest =>
    if MAX_EXITS ≤ exits_count then []
    else
      { direction := direction, target_location := valuestring target } ::
        parse_exits (exits_count + 1) rest

/-- The items loop of parse_location (cJSON): break at MAX_ITEMS, keep
only string elements. -/
def parse_items : Nat → List Json → List String
  | _, [] => []
  | items_count, item :: rest =>
    if MAX_ITEMS ≤ items_count then []
    else
      match item with
      | Json.str s => s :: parse_items (items_count + 1) rest
      | _ => parse_items items_count rest

/-- parse_location from the cJSON translation unit. -/
def parse_location (location_json : Json) (location_id : String) : Location :=
  { id := location_id
  , title := str_field location_json "title"
  , description := str_field location_json "description"
  , image_path := str_field location_json "image"
  , first_visit_text := str_field location_json "first_visit_text"
  , visited := bool_field location_json "visited"
  , exits :=
      match getObjectItem location_json "exits" with
      | some (Json.obj entries) => parse_exits 0 entries
      | _ => []
  , items :=
      match getObjectItem location_json "items" with
      | some (Json.arr elems) => parse_items 0 elems
      | _ => []
  , flags_required := []
  , flags_set := [] }

/-- parse_inventory_item from the cJSON translation unit. -/
def parse_inventory_item (item_json : Json) (item_id : String) : InventoryItem :=
  { id := item_id
  , name := str_field item_json "name"
  , description := str_field item_json "description"
  , takeable := bool_field item_json "takeable"
  , useable := bool_field item_json "useable"
  , use_text := str_field item_json "use_text" }

/-- The locations loop of load_game (cJSON): break at MAX_LOCATIONS. -/
def parse_locations : Nat → List (String × Json) → List Location
  | _, [] => []
  | locations_count, (location_id, location_obj) :: rest =>
    if MAX_LOCATIONS ≤ locations_count then []
    else parse_location location_obj location_id :: parse_locations (locations_count + 1) rest

/-- The inventory_items loop of load_game (cJSON). -/
def parse_inventory_items : Nat → List (String × Json) → List InventoryItem
  | _, [] => []
  | count, (item_id, item_obj) :: rest =>
    if MAX_INVENTORY_ITEMS ≤ count then []
    else parse_inventory_item item_obj item_id :: parse_inventory_items (count + 1) rest

/-- The player inventory loop of load_game (cJSON). -/
def parse_player_inventory : Nat → List Json → List String
  | _, [] => []
  | count, item :: rest =>
    if MAX_INVENTORY_ITEMS ≤ count then []
    else
      match item with
      | Json.str s => s :: parse_player_inventory (count + 1) rest
      | _ => parse_player_inventory count rest

/-- The meta block of load_game (cJSON). -/
def parse_meta_block (d : Json) : GameMeta :=
  match getObjectItem d "meta" with
  | some meta =>
    { title := str_field meta "title"
    , author := str_field meta "author"
    , description := str_field meta "description"
    , version := str_field meta "version" }
  | none => { title := "", author := "", description := "", version := "" }

/-- The locations section of load_game (cJSON). -/
def parse_locations_block (d : Json) : List Location :=
  match getObjectItem d "locations" with
  | some (Json.obj entries) => parse_locations 0 entries
  | _ => []

/-- The inventory_items section of load_game (cJSON). -/
def parse_inventory_items_block (d : Json) : List InventoryItem :=
  match getObjectItem d "inventory_items" with
  | some (Json.obj entries) => parse_inventory_items 0 entries
  | _ => []

/-- The player-inventory section of load_game (cJSON). -/
def parse_player_inventory_block (player : Json) : List String :=
  match getObjectItem player "inventory" with
  | some (Json.arr elems) => parse_player_inventory 0 elems
  | _ => []

/-- The player block of load_game (cJSON). -/
def parse_player_block (d : Json) (start_location : String) : Player :=
  match getObjectItem d "player" with
  | some player =>
    { current_location :=
        match getObjectItem player "current_location" with
        | some (Json.str s) => s
        | _ => start_location
    , inventory := parse_player_inventory_block player
    , flags := [] }
  | none => { current_location := start_location, inventory := [], flags := [] }

/-- load_game from the cJSON translation unit, on an already-tokenized
document. -/
def load_game (d : Json) : GameState :=
  { meta := parse_meta_block d
  , start_location := str_field d "start_location"
  , locations := parse_locations_block d
  , inventory_items := parse_inventory_items_block d
  , game_flags := []
  , player := parse_player_block d (str_field d "start_location") }

end Cjson

/-- Outcomes of one dispatched input line, labelling the branches of
handle_input in main.c. -/
inductive Outcome where
  | moved (direction : String) (success : Bool)
  | looked
  | inventoryShown
  | helpShown
  | terminated
  | unknown (line : String)
deriving DecidableEq

/-- Character-by-character comparison of a keyword against the head of a
line: models strncmp(s, pre, strlen(pre)) == 0. -/
def chars_agree : List Char → List Char → Bool
  | [], _ => true
  | _ :: _, [] => false
  | p :: ps, c :: cs => p == c && chars_agree ps cs

/-- Keyword head test of handle_input: strncmp(input, pre, strlen(pre))
comparing equal. -/
def starts_with (s pre : String) : Bool :=
  chars_agree pre.data s.data

/-- The direction extraction of handle_input: strchr(input, ' ') + 1,
everything after the first space. -/
def after_first_space (s : String) : String :=
  String.mk ((s.data.dropWhile (fun c => c != ' ')).drop 1)

/-- handle_input from main.c: the six dispatch rules in order.  The
renderer.running flag is the Bool state; the Outcome labels the branch
taken. -/
def handle_input (game : GameState) (running : Bool) (input : String) :
    GameState × Bool × Outcome :=
  if starts_with input "go " || starts_with input "move " then
    let direction := after_first_space input
    let result := move_player game direction
    (result.1, running, Outcome.moved direction result.2)
  else if input == "look" || input == "l" then
    (game, running, Outcome.looked)
  else if input == "inventory" || input == "i" then
    (game, running, Outcome.inventoryShown)
  else if input == "help" then
    (game, running, Outcome.helpShown)
  else if input == "quit" || input == "exit" then
    (game, false, Outcome.terminated)
  else
    (game, running, Outcome.unknown input)

/-- A location with every optional field at its calloc default. -/
def emptyLocation (location_id : String) : Location :=
  { id := location_id
  , title := ""
  , description := ""
  , image_path := ""
  , first_visit_text := ""
  , visited := false
  , exits := []
  , items := []
  , flags_required := []
  , flags_set := [] }

/-- A game state with every field at its calloc default. -/
def emptyGameState : GameState :=
  { meta := { title := "", author := "", description := "", version := "" }
  , start_location := ""
  , locations := []
  , inventory_items := []
  , game_flags := []
  , player := { inventory := [], current_location := "", flags := [] } }

/-- Location A of the movement-determinism scenario: two exits both named
north, inserted B first, then C. -/
def locA : Location :=
  { emptyLocation "A" with
      exits := [ { direction := "north", target_location := "B" }
               , { direction := "north", target_location := "C" } ] }

def locB : Location := emptyLocation "B"

def locC : Location := emptyLocation "C"

/-- World for the movement scenarios: player at A. -/
def gMove : GameState :=
  { emptyGameState with
      locations := [locA, locB, locC]
      player := { inventory := [], current_location := "A", flags := [] } }

/-- Location with a dangling exit. -/
def locD : Location :=
  { emptyLocation "D" with
      exits := [ { direction := "east", target_location := "nowhere" } ] }

/-- World with only the dangling-exit location, player at D. -/
def gDangle : GameState :=
  { emptyGameState with
      locations := [locD]
      player := { inventory := [], current_location := "D", flags := [] } }

/-- World with one player-scope flag p and one game-scope flag q. -/
def gFlags : GameState :=
  { emptyGameState with
      game_flags := [("q", true)]
      player := { inventory := [], current_location := "", flags := [("p", true)] } }

/-- World whose player flag table is at the MAX_FLAGS capacity. -/
def gFlags128 : GameState :=
  { emptyGameState with
      player := { inventory := [], current_location := ""
                , flags := List.replicate 128 ("f", false) } }

/-- World holding exactly the item key. -/
def gKey : GameState :=
  { emptyGameState with
      player := { inventory := ["key"], current_location := "", flags := [] } }

/-- World whose inventory is at the MAX_INVENTORY_ITEMS capacity. -/
def gFull : GameState :=
  { emptyGameState with
      player := { inventory := List.replicate 64 "rock", current_location := "", flags := [] } }

/-- Document with one location that does not set visited. -/
def doc_plain : Json :=
  Json.obj [("locations", Json.obj [("a", Json.obj [])])]

/-- Document with one location whose visited field is set true. -/
def doc_visited_true : Json :=
  Json.obj [("locations", Json.obj [("a", Json.obj [("visited", Json.bool true)])])]

/-- Document with a start location and no player block. -/
def doc_no_player : Json :=
  Json.obj [ ("start_location", Json.str "start")
           , ("locations", Json.obj [("start", Json.obj [])]) ]

/-- Document with a player block lacking a current_location string. -/
def doc_player_no_loc : Json :=
  Json.obj [ ("start_location", Json.str "start")
           , ("locations", Json.obj [("start", Json.obj [])])
           , ("player", Json.obj [("inventory", Json.arr [Json.str "key"])]) ]

/-- The location entries of a document, as iterated by load_game. -/
def location_entries (d : Json) : List (String × Json) :=
  match d.lookupKey "locations" with
  | some (Json.obj entries) => entries
  | _ => []

theorem find_exit_of_first (direction : String) :
    ∀ (exits : List Exit) (i : Nat) (e : Exit), exits[i]? = some e →
    str_case_eq e.direction direction = true →
    (∀ j ej, j < i → exits[j]? = some ej → str_case_eq ej.direction direction = false) →
    find_exit exits direction = some e := by
  intro exits
  induction exits with
  | nil => intro i e h _ _; simp at h
  | cons x rest ih =>
    intro i e h hm hf
    cases i with
    | zero =>
      simp at h
      subst h
      simp [find_exit, hm]
    | succ n =>
      have hx : str_case_eq x.direction direction = false := hf 0 x (Nat.succ_pos n) (by simp)
      simp only [find_exit, hx, Bool.false_eq_true, if_false]
      exact ih n e (by simpa using h) hm
        (fun j ej hj hje => hf (j + 1) ej (by omega) (by simpa using hje))

theorem find_exit_eq_none (direction : String) :
    ∀ exits : List Exit, (∀ e ∈ exits, str_case_eq e.direction direction = false) →
    find_exit exits direction = none := by
  intro exits
  induction exits with
  | nil => intro _; rfl
  | cons x rest ih =>
    intro h
    have hx := h x (List.mem_cons_self x rest)
    simp only [find_exit, hx, Bool.false_eq_true, if_false]
    exact ih (fun e he => h e (List.mem_cons_of_mem x he))

theorem find_location_set_visited (location_id : String) :
    ∀ (locs : List Location) (t : Location),
    find_location locs location_id = some t →
    find_location (set_visited_by_id locs location_id) location_id =
      some { t with visited := true } := by
  intro locs
  induction locs with
  | nil => intro t h; simp [find_location] at h
  | cons l rest ih =>
    intro t h
    by_cases hl : (l.id == location_id) = true
    · simp only [find_location, hl, if_true, Option.some.injEq] at h
      subst h
      simp [set_visited_by_id, find_location, hl]
    · simp only [find_location, hl, Bool.false_eq_true, if_false] at h
      · simp only [set_visited_by_id, hl, Bool.false_eq_true, if_false, find_location]
        exact ih t h

theorem set_visited_by_id_getElem (location_id : String) :
    ∀ (locs : List Location) (i : Nat) (l : Location), locs[i]? = some l →
    (set_visited_by_id locs location_id)[i]? = some l ∨
    (set_visited_by_id locs location_id)[i]? = some { l with visited := true } := by
  intro locs
  induction locs with
  | nil => intro i l h; simp at h
  | cons x rest ih =>
    intro i l h
    by_cases hx : (x.id == location_id) = true
    · cases i with
      | zero =>
        simp at h
        subst h
        right
        simp [set_visited_by_id, hx]
      | succ n =>
        left
        simp at h
        simp [set_visited_by_id, hx]
        exact h
    · cases i with
      | zero =>
        simp at h
        subst h
        left
        simp [set_visited_by_id, hx]
      | succ n =>
        simp at h
        simp only [set_visited_by_id, hx, Bool.false_eq_true, if_false, List.getElem?_cons_succ]
        exact ih n l h

theorem find_flag_value_eq_lookup (flag_name : String) :
    ∀ flags : List (String × Bool), find_flag_value flags flag_name = flags.lookup flag_name := by
  intro flags
  induction flags with
  | nil => rfl
  | cons p rest ih =>
    obtain ⟨k, v⟩ := p
    by_cases h : k = flag_name
    · subst h
      simp [find_flag_value, List.lookup]
    · have hbeq : (flag_name == k) = false := by simp [Ne.symm h]
      simp [find_flag_value, List.lookup, h, hbeq, ih]

theorem update_flag_eq_none (flag_name : String) (value : Bool) :
    ∀ flags : List (String × Bool), flags.lookup flag_name = none →
    update_flag flags flag_name value = none := by
  intro flags
  induction flags with
  | nil => intro _; rfl
  | cons p rest ih =>
    obtain ⟨k, v⟩ := p
    intro h
    by_cases hk : k = flag_name
    · subst hk; simp [List.lookup] at h
    · have hbeq : (flag_name == k) = false := by simp [Ne.symm hk]
      simp only [List.lookup, hbeq] at h
      simp [update_flag, hk, ih h]

theorem update_flag_eq_some (flag_name : String) (value : Bool) :
    ∀ (flags : List (String × Bool)) (w : Bool), flags.lookup flag_name = some w →
    ∃ flags2, update_flag flags flag_name value = some flags2 ∧
      flags2.lookup flag_name = some value ∧
      flags2.map Prod.fst = flags.map Prod.fst := by
  intro flags
  induction flags with
  | nil => intro w h; simp [List.lookup] at h
  | cons p rest ih =>
    obtain ⟨k, v⟩ := p
    intro w h
    by_cases hk : k = flag_name
    · subst hk
      refine ⟨(k, value) :: rest, ?_, ?_, rfl⟩
      · simp [update_flag]
      · simp [List.lookup]
    · have hbeq : (flag_name == k) = false := by simp [Ne.symm hk]
      simp only [List.lookup, hbeq] at h
      obtain ⟨rest2, h1, h2, h3⟩ := ih w h
      refine ⟨(k, v) :: rest2, ?_, ?_, ?_⟩
      · simp [update_flag, hk, h1]
      · simp only [List.lookup, hbeq]
        exact h2
      · simp [h3]

theorem remove_first_eq_none (item_id : String) :
    ∀ inv : List String, inv.contains item_id = false →
    remove_first inv item_id = none := by
  intro inv
  induction inv with
  | nil => intro _; rfl
  | cons x rest ih =>
    intro h
    rw [List.contains_cons, Bool.or_eq_false_iff] at h
    obtain ⟨h1, h2⟩ := h
    have hx : (x == item_id) = false := by
      simp only [beq_eq_false_iff_ne, ne_eq] at h1 ⊢
      exact fun hh => h1 hh.symm
    simp [remove_first, hx, ih h2]

theorem remove_first_length (item_id : String) :
    ∀ (inv inv2 : List String), remove_first inv item_id = some inv2 →
    inv2.length + 1 = inv.length := by
  intro inv
  induction inv with
  | nil => intro inv2 h; simp [remove_first] at h
  | cons x rest ih =>
    intro inv2 h
    by_cases hx : (x == item_id) = true
    · rw [remove_first, if_pos hx] at h
      obtain rfl := Option.some.inj h
      simp
    · rw [remove_first, if_neg hx] at h
      cases hr : remove_first rest item_id with
      | none => rw [hr] at h; cases h
      | some rest2 =>
        rw [hr] at h
        obtain rfl := Option.some.inj h
        have := ih rest2 hr
        simp only [List.length_cons]
        omega

theorem contains_append_singleton (item_id : String) :
    ∀ inv : List String, (inv ++ [item_id]).contains item_id = true := by
  intro inv
  induction inv with
  | nil => simp [List.contains_cons]
  | cons x rest ih => simp [List.contains_cons, ih]

theorem parse_player_inventory_length :
    ∀ (elems : List Json) (count : Nat),
    (Jsonc.parse_player_inventory count elems).length ≤ MAX_INVENTORY_ITEMS - count := by
  intro elems
  induction elems with
  | nil => intro count; simp [Jsonc.parse_player_inventory]
  | cons x rest ih =>
    intro count
    by_cases hc : MAX_INVENTORY_ITEMS ≤ count
    · simp [Jsonc.parse_player_inventory, hc]
    · cases x with
      | str s =>
        have h2 := ih (count + 1)
        simp only [Jsonc.parse_player_inventory, hc, if_false, List.length_cons]
        omega
      | null => simpa [Jsonc.parse_player_inventory, hc] using ih count
      | bool b => simpa [Jsonc.parse_player_inventory, hc] using ih count
      | num n => simpa [Jsonc.parse_player_inventory, hc] using ih count
      | arr es => simpa [Jsonc.parse_player_inventory, hc] using ih count
      | obj es => simpa [Jsonc.parse_player_inventory, hc] using ih count

theorem parse_player_inventory_block_length (p : Json) :
    (Jsonc.parse_player_inventory_block p).length ≤ MAX_INVENTORY_ITEMS := by
  rw [Jsonc.parse_player_inventory_block]
  cases hi : p.lookupKey "inventory" with
  | none => exact Nat.zero_le _
  | some j =>
    cases j with
    | arr elems => exact parse_player_inventory_length elems 0
    | null => exact Nat.zero_le _
    | bool b => exact Nat.zero_le _
    | num n => exact Nat.zero_le _
    | str s => exact Nat.zero_le _
    | obj es => exact Nat.zero_le _

/-- C1: for a state whose current location resolves, move_player selects
the first exit (in stored order) whose direction equals the requested
direction case-insensitively, and when that exit's target resolves it sets
the player's current_location to the exit's target id and returns
success. -/
theorem move_player_first_match_success (g : GameState) (direction : String)
    (loc : Location) (i : Nat) (e : Exit) (t : Location)
    (hcur : get_current_location g = some loc)
    (hi : loc.exits[i]? = some e)
    (hm : str_case_eq e.direction direction = true)
    (hfirst : ∀ j ej, j < i → loc.exits[j]? = some ej →
      str_case_eq ej.direction direction = false)
    (ht : get_location_by_id g e.target_location = some t) :
    (move_player g direction).2 = true ∧
    (move_player g direction).1.player.current_location = e.target_location := by
  have hfe : find_exit loc.exits direction = some e :=
    find_exit_of_first direction loc.exits i e hi hm hfirst
  simp only [move_player, hcur, hfe, ht]
  exact ⟨trivial, trivial⟩

/-- Witness for C1: in the world whose location A has two exits both named
north (targets B then C, in that insertion order), moving north from A
lands on B, and the match is case-insensitive. -/
theorem move_player_first_match_success_witness :
    ((move_player gMove "north").2 = true ∧
      (move_player gMove "north").1.player.current_location = "B") ∧
    ((move_player gMove "NORTH").2 = true ∧
      (move_player gMove "NORTH").1.player.current_location = "B") :=
  ⟨move_player_first_match_success gMove "north" locA 0
      { direction := "north", target_location := "B" } locB
      (by decide) (by decide) (by decide)
      (fun j ej hj _ => absurd hj (Nat.not_lt_zero j)) (by decide),
    move_player_first_match_success gMove "NORTH" locA 0
      { direction := "north", target_location := "B" } locB
      (by decide) (by decide) (by decide)
      (fun j ej hj _ => absurd hj (Nat.not_lt_zero j)) (by decide)⟩

/-- C2: when no exit of the current location matches the requested
direction, or when the first matching exit's target id does not resolve
(dangling exit), move_player reports failure and the whole game state,
in particular the player's current_location, is left unmodified. -/
theorem move_player_failure_unchanged (g : GameState) (direction : String) (loc : Location)
    (hcur : get_current_location g = some loc) :
    ((∀ e ∈ loc.exits, str_case_eq e.direction direction = false) →
      move_player g direction = (g, false)) ∧
    (∀ (i : Nat) (e : Exit), loc.exits[i]? = some e →
      str_case_eq e.direction direction = true →
      (∀ (j : Nat) (ej : Exit), j < i → loc.exits[j]? = some ej →
        str_case_eq ej.direction direction = false) →
      get_location_by_id g e.target_location = none →
      move_player g direction = (g, false)) := by
  constructor
  · intro hall
    have hfe : find_exit loc.exits direction = none :=
      find_exit_eq_none direction loc.exits hall
    simp [move_player, hcur, hfe]
  · intro i e hi hm hfirst hnone
    have hfe : find_exit loc.exits direction = some e :=
      find_exit_of_first direction loc.exits i e hi hm hfirst
    simp [move_player, hcur, hfe, hnone]

/-- Witness for C2: in the dangling-exit world, moving in an unmatched
direction fails with the state unchanged, and taking the dangling east
exit fails with the state unchanged. -/
theorem move_player_failure_unchanged_witness :
    move_player gDangle "up" = (gDangle, false) ∧
    move_player gDangle "east" = (gDangle, false) :=
  ⟨(move_player_failure_unchanged gDangle "up" locD (by decide)).1 (by decide),
    (move_player_failure_unchanged gDangle "east" locD (by decide)).2 0
      { direction := "east", target_location := "nowhere" } (by decide) (by decide)
      (fun j ej hj _ => absurd hj (Nat.not_lt_zero j)) (by decide)⟩

/-- C3: get_flag returns the player-scope entry's value when the name is
present there, else the game-scope entry's value when present there, else
false.  get_flag is a pure function of type GameState → String → Bool, so
it cannot modify the state and creates no entry in either table. -/
theorem get_flag_scope_precedence (g : GameState) (flag_name : String) :
    (∀ v, g.player.flags.lookup flag_name = some v → get_flag g flag_name = v) ∧
    (g.player.flags.lookup flag_name = none →
      ∀ v, g.game_flags.lookup flag_name = some v → get_flag g flag_name = v) ∧
    (g.player.flags.lookup flag_name = none →
      g.game_flags.lookup flag_name = none → get_flag g flag_name = false) := by
  refine ⟨?_, ?_, ?_⟩
  · intro v h
    rw [get_flag, find_flag_value_eq_lookup, h]
  · intro hp v h
    rw [get_flag, find_flag_value_eq_lookup, hp, find_flag_value_eq_lookup, h]
  · intro hp hg
    rw [get_flag, find_flag_value_eq_lookup, hp, find_flag_value_eq_lookup, hg]

/-- Witness for C3: player-scope flag p reads its player value, the
game-scope-only flag q reads its game value, an absent flag reads false. -/
theorem get_flag_scope_precedence_witness :
    get_flag gFlags "p" = true ∧ get_flag gFlags "q" = true ∧ get_flag gFlags "zzz" = false :=
  ⟨(get_flag_scope_precedence gFlags "p").1 true (by decide),
    (get_flag_scope_precedence gFlags "q").2.1 (by decide) true (by decide),
    (get_flag_scope_precedence gFlags "zzz").2.2 (by decide) (by decide)⟩

/-- C4 (amended): set_flag updates an existing player-scope entry in place
when the name is present there, else an existing game-scope entry in place
(in either case preserving the entry's scope and creating no new entry);
when the name is absent from both scopes it appends a new player-scope
entry provided the player flag table is below MAX_FLAGS — at capacity the
write is silently dropped and the state is unchanged. -/
theorem set_flag_scope_behavior (g : GameState) (flag_name : String) (value : Bool) :
    (∀ w, g.player.flags.lookup flag_name = some w →
      (set_flag g flag_name value).player.flags.lookup flag_name = some value ∧
      (set_flag g flag_name value).player.flags.map Prod.fst =
        g.player.flags.map Prod.fst ∧
      (set_flag g flag_name value).game_flags = g.game_flags) ∧
    (g.player.flags.lookup flag_name = none →
      ∀ w, g.game_flags.lookup flag_name = some w →
      (set_flag g flag_name value).game_flags.lookup flag_name = some value ∧
      (set_flag g flag_name value).game_flags.map Prod.fst =
        g.game_flags.map Prod.fst ∧
      (set_flag g flag_name value).player = g.player) ∧
    (g.player.flags.lookup flag_name = none →
      g.game_flags.lookup flag_name = none →
      g.player.flags.length < MAX_FLAGS →
      set_flag g flag_name value =
        { g with player :=
            { g.player with flags := g.player.flags ++ [(flag_name, value)] } }) ∧
    (g.player.flags.lookup flag_name = none →
      g.game_flags.lookup flag_name = none →
      MAX_FLAGS ≤ g.player.flags.length →
      set_flag g flag_name value = g) := by
  refine ⟨?_, ?_, ?_, ?_⟩
  · intro w h
    obtain ⟨fl2, h1, h2, h3⟩ := update_flag_eq_some flag_name value g.player.flags w h
    simp only [set_flag, h1]
    exact ⟨h2, h3, trivial⟩
  · intro hp w h
    have hup : update_flag g.player.flags flag_name value = none :=
      update_flag_eq_none flag_name value g.player.flags hp
    obtain ⟨fl2, h1, h2, h3⟩ := update_flag_eq_some flag_name value g.game_flags w h
    simp only [set_flag, hup, h1]
    exact ⟨h2, h3, trivial⟩
  · intro hp hg hlen
    have hup : update_flag g.player.flags flag_name value = none :=
      update_flag_eq_none flag_name value g.player.flags hp
    have hug : update_flag g.game_flags flag_name value = none :=
      update_flag_eq_none flag_name value g.game_flags hg
    simp only [set_flag, hup, hug, if_pos hlen]
  · intro hp hg hlen
    have hup : update_flag g.player.flags flag_name value = none :=
      update_flag_eq_none flag_name value g.player.flags hp
    have hug : update_flag g.game_flags flag_name value = none :=
      update_flag_eq_none flag_name value g.game_flags hg
    simp only [set_flag, hup, hug, if_neg (Nat.not_lt.mpr hlen)]

set_option maxRecDepth 4000 in
/-- Counterexample for C4 as stated: with the player flag table at the
MAX_FLAGS capacity and the name x absent from both scopes, set_flag
inserts no player-scope entry — the state is unchanged and x is still
absent. -/
theorem set_flag_capacity_no_insert :
    set_flag gFlags128 "x" true = gFlags128 ∧
    gFlags128.player.flags.lookup "x" = none ∧
    gFlags128.game_flags.lookup "x" = none := by
  refine ⟨?_, ?_, ?_⟩ <;> decide

/-- Witness for C4: writing the game-scope-only flag q updates it in game
scope, preserving the game table's keys and the whole player struct. -/
theorem set_flag_scope_behavior_witness :
    (set_flag gFlags "q" false).game_flags.lookup "q" = some false ∧
    (set_flag gFlags "q" false).game_flags.map Prod.fst =
      gFlags.game_flags.map Prod.fst ∧
    (set_flag gFlags "q" false).player = gFlags.player :=
  (set_flag_scope_behavior gFlags "q" false).2.1 (by decide) true (by decide)

/-- C5: the inventory behaves as a set: adding an id already present in
the player's inventory fails and leaves the state unchanged, removing an
id absent from the inventory fails and leaves the state unchanged, and a
successful add makes the id present — so adding the same id twice
succeeds at most once. -/
theorem inventory_set_semantics (g : GameState) (item_id : String) :
    (has_item g item_id = true → add_item_to_inventory g item_id = (g, false)) ∧
    (has_item g item_id = false → remove_item_from_inventory g item_id = (g, false)) ∧
    ((add_item_to_inventory g item_id).2 = true →
      has_item (add_item_to_inventory g item_id).1 item_id = true) := by
  refine ⟨?_, ?_, ?_⟩
  · intro h
    by_cases hc : MAX_INVENTORY_ITEMS ≤ g.player.inventory.length
    · simp [add_item_to_inventory, hc]
    · simp [add_item_to_inventory, hc, h]
  · intro h
    have hr := remove_first_eq_none item_id g.player.inventory h
    simp [remove_item_from_inventory, hr]
  · intro h
    by_cases hc : MAX_INVENTORY_ITEMS ≤ g.player.inventory.length
    · simp [add_item_to_inventory, hc] at h
    · by_cases hh : has_item g item_id = true
      · simp [add_item_to_inventory, hc, hh] at h
      · simp only [Bool.not_eq_true] at hh
        have hmem : item_id ∉ g.player.inventory := by
          simpa [has_item] using hh
        simp [add_item_to_inventory, hc, has_item, hmem]

/-- Witness for C5: adding the already-held key fails unchanged, removing
an absent coin fails unchanged, and a successful add of torch holds it. -/
theorem inventory_set_semantics_witness :
    add_item_to_inventory gKey "key" = (gKey, false) ∧
    remove_item_from_inventory gKey "coin" = (gKey, false) ∧
    has_item (add_item_to_inventory gKey "torch").1 "torch" = true :=
  ⟨(inventory_set_semantics gKey "key").1 (by decide),
    (inventory_set_semantics gKey "coin").2.1 (by decide),
    (inventory_set_semantics gKey "torch").2.2 (by decide)⟩

/-- C6: the configured capacity is 64; inventory_count ≤
MAX_INVENTORY_ITEMS holds after parsing, add_item_to_inventory at
capacity fails without mutating any state, and every operation preserves
the bound. -/
theorem inventory_capacity_invariant (d : Json) (g : GameState)
    (item_id direction flag_name : String) (value : Bool) :
    MAX_INVENTORY_ITEMS = 64 ∧
    (Jsonc.load_game d).player.inventory.length ≤ MAX_INVENTORY_ITEMS ∧
    (MAX_INVENTORY_ITEMS ≤ g.player.inventory.length →
      add_item_to_inventory g item_id = (g, false)) ∧
    (g.player.inventory.length ≤ MAX_INVENTORY_ITEMS →
      (add_item_to_inventory g item_id).1.player.inventory.length ≤ MAX_INVENTORY_ITEMS ∧
      (remove_item_from_inventory g item_id).1.player.inventory.length ≤
        MAX_INVENTORY_ITEMS ∧
      (move_player g direction).1.player.inventory.length ≤ MAX_INVENTORY_ITEMS ∧
      (set_flag g flag_name value).player.inventory.length ≤ MAX_INVENTORY_ITEMS) := by
  refine ⟨rfl, ?_, ?_, ?_⟩
  · show (Jsonc.parse_player_block d
      ((Jsonc.get_json_string d "start_location").getD "")).inventory.length ≤
      MAX_INVENTORY_ITEMS
    rw [Jsonc.parse_player_block]
    cases hp : d.lookupKey "player" with
    | none => exact Nat.zero_le _
    | some p => exact parse_player_inventory_block_length p
  · intro h
    simp [add_item_to_inventory, h]
  · intro h
    refine ⟨?_, ?_, ?_, ?_⟩
    · by_cases hc : MAX_INVENTORY_ITEMS ≤ g.player.inventory.length
      · simpa [add_item_to_inventory, hc] using h
      · by_cases hh : has_item g item_id = true
        · simpa [add_item_to_inventory, hc, hh] using h
        · simp only [Bool.not_eq_true] at hh
          simp [add_item_to_inventory, hc, hh]
          omega
    · cases hr : remove_first g.player.inventory item_id with
      | none => simpa [remove_item_from_inventory, hr] using h
      | some inv2 =>
        have hlen := remove_first_length item_id g.player.inventory inv2 hr
        simp [remove_item_from_inventory, hr]
        omega
    · cases hc : get_current_location g with
      | none => simpa [move_player, hc] using h
      | some loc =>
        cases hfe : find_exit loc.exits direction with
        | none => simpa [move_player, hc, hfe] using h
        | some e =>
          cases ht : get_location_by_id g e.target_location with
          | none => simpa [move_player, hc, hfe, ht] using h
          | some t => simpa [move_player, hc, hfe, ht] using h
    · rw [set_flag]
      cases hup : update_flag g.player.flags flag_name value with
      | some fl => simpa using h
      | none =>
        cases hug : update_flag g.game_flags flag_name value with
        | some fl => simpa using h
        | none =>
          by_cases hlen : g.player.flags.length < MAX_FLAGS
          · simpa [hlen] using h
          · simpa [hlen] using h

/-- Witness for C6: adding to a full inventory fails with the state
unchanged, and an add below capacity stays within the bound. -/
theorem inventory_capacity_invariant_witness :
    add_item_to_inventory gFull "torch" = (gFull, false) ∧
    (add_item_to_inventory gKey "torch").1.player.inventory.length ≤ MAX_INVENTORY_ITEMS :=
  ⟨(inventory_capacity_invariant (Json.obj []) gFull "torch" "north" "f" true).2.2.1
      (by decide),
    ((inventory_capacity_invariant (Json.obj []) gKey "torch" "north" "f" true).2.2.2
      (by decide)).1⟩

theorem parse_locations_visited :
    ∀ (entries : List (String × Json)) (count : Nat),
    (∀ p ∈ entries, Jsonc.get_json_bool p.2 "visited" = false) →
    ∀ loc ∈ Jsonc.parse_locations count entries, loc.visited = false := by
  intro entries
  induction entries with
  | nil => intro count _ loc hloc; simp [Jsonc.parse_locations] at hloc
  | cons p rest ih =>
    intro count hall loc hloc
    obtain ⟨location_id, v⟩ := p
    by_cases hc : MAX_LOCATIONS ≤ count
    · rw [Jsonc.parse_locations, if_pos hc] at hloc
      simp at hloc
    · rw [Jsonc.parse_locations, if_neg hc] at hloc
      rcases List.mem_cons.mp hloc with rfl | hloc2
      · show Jsonc.get_json_bool v "visited" = false
        exact hall (location_id, v) (List.mem_cons_self _ _)
      · exact ih (count + 1) (fun q hq => hall q (List.mem_cons_of_mem _ hq)) loc hloc2

/-- Counterexample for C7 as stated: the parser honours a visited field in
the document, so the world freshly loaded from doc_visited_true already
has its only location visited before any move. -/
theorem freshly_loaded_visited_true :
    (Jsonc.load_game doc_visited_true).locations.map Location.visited = [true] := by
  rfl

/-- C7 (amended): every location loaded from a document whose location
entries carry no true visited field has visited = false; after one
successful move_player the arrival location (the one the new
current_location resolves to) has visited = true, so a second successful
move into it leaves it true; and no operation resets visited — move_player
only raises the flag, and the inventory and flag operations leave the
location table untouched. -/
theorem visited_lifecycle (d : Json) (g : GameState)
    (direction item_id flag_name : String) (value : Bool) :
    ((∀ p ∈ location_entries d, Jsonc.get_json_bool p.2 "visited" = false) →
      ∀ loc ∈ (Jsonc.load_game d).locations, loc.visited = false) ∧
    (∀ g2 : GameState, move_player g direction = (g2, true) →
      ∃ loc, get_location_by_id g2 g2.player.current_location = some loc ∧
        loc.visited = true) ∧
    (∀ (i : Nat) (l l2 : Location), g.locations[i]? = some l →
      (move_player g direction).1.locations[i]? = some l2 →
      l.visited = true → l2.visited = true) ∧
    (add_item_to_inventory g item_id).1.locations = g.locations ∧
    (remove_item_from_inventory g item_id).1.locations = g.locations ∧
    (set_flag g flag_name value).locations = g.locations := by
  refine ⟨?_, ?_, ?_, ?_, ?_, ?_⟩
  · intro hd loc hloc
    have heq : (Jsonc.load_game d).locations = Jsonc.parse_locations_block d := rfl
    rw [heq, Jsonc.parse_locations_block] at hloc
    rw [location_entries] at hd
    cases hL : d.lookupKey "locations" with
    | none =>
      rw [hL] at hloc
      simp at hloc
    | some j =>
      rw [hL] at hloc hd
      cases j with
      | obj entries => exact parse_locations_visited entries 0 hd loc hloc
      | null => simp at hloc
      | bool b => simp at hloc
      | num n => simp at hloc
      | str s => simp at hloc
      | arr es => simp at hloc
  · intro g2 hmv
    cases hcur : get_current_location g with
    | none => simp [move_player, hcur] at hmv
    | some loc =>
      cases hfe : find_exit loc.exits direction with
      | none => simp [move_player, hcur, hfe] at hmv
      | some e =>
        cases ht : get_location_by_id g e.target_location with
        | none => simp [move_player, hcur, hfe, ht] at hmv
        | some t =>
          simp only [move_player, hcur, hfe, ht, Prod.mk.injEq] at hmv
          obtain ⟨hg2, -⟩ := hmv
          subst hg2
          exact ⟨{ t with visited := true },
            find_location_set_visited e.target_location g.locations t ht, rfl⟩
  · intro i l l2 hl hl2 hvis
    cases hcur : get_current_location g with
    | none =>
      simp only [move_player, hcur] at hl2
      obtain rfl := Option.some.inj (hl.symm.trans hl2)
      exact hvis
    | some loc =>
      cases hfe : find_exit loc.exits direction with
      | none =>
        simp only [move_player, hcur, hfe] at hl2
        obtain rfl := Option.some.inj (hl.symm.trans hl2)
        exact hvis
      | some e =>
        cases ht : get_location_by_id g e.target_location with
        | none =>
          simp only [move_player, hcur, hfe, ht] at hl2
          obtain rfl := Option.some.inj (hl.symm.trans hl2)
          exact hvis
        | some t =>
          simp only [move_player, hcur, hfe, ht] at hl2
          rcases set_visited_by_id_getElem e.target_location g.locations i l hl with h | h
          · obtain rfl := Option.some.inj (h.symm.trans hl2)
            exact hvis
          · obtain rfl := Option.some.inj (h.symm.trans hl2)
            rfl
  · rw [add_item_to_inventory]
    by_cases hc : MAX_INVENTORY_ITEMS ≤ g.player.inventory.length
    · rw [if_pos hc]
    · rw [if_neg hc]
      by_cases hh : has_item g item_id = true
      · rw [if_pos hh]
      · rw [if_neg hh]
  · rw [remove_item_from_inventory]
    cases hr : remove_first g.player.inventory item_id with
    | some inv => rfl
    | none => rfl
  · rw [set_flag]
    cases hup : update_flag g.player.flags flag_name value with
    | some fl => rfl
    | none =>
      cases hug : update_flag g.game_flags flag_name value with
      | some fl => rfl
      | none =>
        by_cases hlen : g.player.flags.length < MAX_FLAGS
        · rw [if_pos hlen]
        · rw [if_neg hlen]

/-- Witness for C7: the plainly loaded document has all locations
unvisited, and a successful move marks the arrival location visited. -/
theorem visited_lifecycle_witness :
    (∀ loc ∈ (Jsonc.load_game doc_plain).locations, loc.visited = false) ∧
    (∃ loc, get_location_by_id (move_player gMove "north").1
        ((move_player gMove "north").1).player.current_location = some loc ∧
      loc.visited = true) :=
  ⟨(visited_lifecycle doc_plain gMove "north" "x" "f" true).1 (by decide),
    (visited_lifecycle doc_plain gMove "north" "x" "f" true).2.1
      (move_player gMove "north").1 (by decide)⟩

/-- C8: handle_input dispatches by the six rules in priority order with
first match winning: a line whose case-sensitive head is go-space or
move-space extracts everything after the first space as the direction and
runs move_player; exact look and l leave the state untouched; exact
inventory, i and help self-loop; quit and exit are the only inputs that
clear the running flag; any other line yields the unknown outcome with no
state change. -/
theorem handle_input_dispatch (g : GameState) (r : Bool) (line : String) :
    ((starts_with line "go " || starts_with line "move ") = true →
      handle_input g r line =
        ((move_player g (after_first_space line)).1, r,
          Outcome.moved (after_first_space line)
            (move_player g (after_first_space line)).2)) ∧
    (handle_input g r "look" = (g, r, Outcome.looked)) ∧
    (handle_input g r "l" = (g, r, Outcome.looked)) ∧
    (handle_input g r "inventory" = (g, r, Outcome.inventoryShown)) ∧
    (handle_input g r "i" = (g, r, Outcome.inventoryShown)) ∧
    (handle_input g r "help" = (g, r, Outcome.helpShown)) ∧
    (handle_input g r "quit" = (g, false, Outcome.terminated)) ∧
    (handle_input g r "exit" = (g, false, Outcome.terminated)) ∧
    ((handle_input g true line).2.1 = false ↔ (line = "quit" ∨ line = "exit")) ∧
    ((starts_with line "go " || starts_with line "move ") = false →
      (handle_input g r line).1 = g) ∧
    ((starts_with line "go " || starts_with line "move ") = false →
      line ≠ "look" → line ≠ "l" → line ≠ "inventory" → line ≠ "i" →
      line ≠ "help" → line ≠ "quit" → line ≠ "exit" →
      handle_input g r line = (g, r, Outcome.unknown line)) := by
  refine ⟨?_, rfl, rfl, rfl, rfl, rfl, rfl, rfl, ?_, ?_, ?_⟩
  · intro h
    rw [handle_input, if_pos h]
  · constructor
    · intro hterm
      rw [handle_input] at hterm
      by_cases h1 : (starts_with line "go " || starts_with line "move ") = true
      · rw [if_pos h1] at hterm
        simp at hterm
      · rw [if_neg h1] at hterm
        by_cases h2 : (line == "look" || line == "l") = true
        · rw [if_pos h2] at hterm; simp at hterm
        · rw [if_neg h2] at hterm
          by_cases h3 : (line == "inventory" || line == "i") = true
          · rw [if_pos h3] at hterm; simp at hterm
          · rw [if_neg h3] at hterm
            by_cases h4 : (line == "help") = true
            · rw [if_pos h4] at hterm; simp at hterm
            · rw [if_neg h4] at hterm
              by_cases h5 : (line == "quit" || line == "exit") = true
              · simpa using h5
              · rw [if_neg h5] at hterm; simp at hterm
    · rintro (rfl | rfl) <;> rfl
  · intro h1
    have h1n : ¬(starts_with line "go " || starts_with line "move ") = true := by simp [h1]
    rw [handle_input, if_neg h1n]
    by_cases h2 : (line == "look" || line == "l") = true
    · rw [if_pos h2]
    · rw [if_neg h2]
      by_cases h3 : (line == "inventory" || line == "i") = true
      · rw [if_pos h3]
      · rw [if_neg h3]
        by_cases h4 : (line == "help") = true
        · rw [if_pos h4]
        · rw [if_neg h4]
          by_cases h5 : (line == "quit" || line == "exit") = true
          · rw [if_pos h5]
          · rw [if_neg h5]
  · intro h1 hlook hl hinv hi hhelp hquit hexit
    have h1n : ¬(starts_with line "go " || starts_with line "move ") = true := by simp [h1]
    have h2 : ¬(line == "look" || line == "l") = true := by simp [hlook, hl]
    have h3 : ¬(line == "inventory" || line == "i") = true := by simp [hinv, hi]
    have h4 : ¬(line == "help") = true := by simp [hhelp]
    have h5 : ¬(line == "quit" || line == "exit") = true := by simp [hquit, hexit]
    rw [handle_input, if_neg h1n, if_neg h2, if_neg h3, if_neg h4, if_neg h5]

/-- Witness for C8: a go line runs move_player on the text after the
space, on a concrete state. -/
theorem handle_input_dispatch_witness :
    handle_input emptyGameState true "go north" =
      ((move_player emptyGameState "north").1, true,
        Outcome.moved "north" (move_player emptyGameState "north").2) :=
  (handle_input_dispatch emptyGameState true "go north").1 (by decide)

/-- C9: when the document omits the player block entirely, or supplies a
player block without a current_location string, the loaded player's
current_location equals the parsed start_location; absent optional fields
are not parse errors and default to empty/false/empty-string, as the
empty-document and empty-location evaluations show. -/
theorem player_location_defaults (d : Json) :
    (d.lookupKey "player" = none →
      (Jsonc.load_game d).player.current_location = (Jsonc.load_game d).start_location) ∧
    (∀ p, d.lookupKey "player" = some p →
      Jsonc.get_json_string p "current_location" = none →
      (Jsonc.load_game d).player.current_location = (Jsonc.load_game d).start_location) ∧
    (Jsonc.load_game (Json.obj []) =
      { meta := { title := "", author := "", description := "", version := "" }
      , start_location := ""
      , locations := []
      , inventory_items := []
      , game_flags := []
      , player := { inventory := [], current_location := "", flags := [] } }) ∧
    (∀ location_id, Jsonc.parse_location (Json.obj []) location_id =
      { id := location_id, title := "", description := "", image_path := ""
      , first_visit_text := "", visited := false, exits := [], items := []
      , flags_required := [], flags_set := [] }) := by
  refine ⟨?_, ?_, by rfl, fun location_id => by rfl⟩
  · intro h
    show (Jsonc.parse_player_block d
      ((Jsonc.get_json_string d "start_location").getD "")).current_location = _
    rw [Jsonc.parse_player_block, h]
    rfl
  · intro p h hs
    show (Jsonc.parse_player_block d
      ((Jsonc.get_json_string d "start_location").getD "")).current_location = _
    rw [Jsonc.parse_player_block, h]
    show (Jsonc.get_json_string p "current_location").getD
      ((Jsonc.get_json_string d "start_location").getD "") = _
    rw [hs]
    rfl

/-- Witness for C9: both defaulting paths on concrete documents — a
document with no player block, and one whose player block has only an
inventory. -/
theorem player_location_defaults_witness :
    (Jsonc.load_game doc_no_player).player.current_location =
      (Jsonc.load_game doc_no_player).start_location ∧
    (Jsonc.load_game doc_player_no_loc).player.current_location =
      (Jsonc.load_game doc_player_no_loc).start_location :=
  ⟨(player_location_defaults doc_no_player).1 (by rfl),
    (player_location_defaults doc_player_no_loc).2.1
      (Json.obj [("inventory", Json.arr [Json.str "key"])]) (by rfl) (by rfl)⟩
